import Mathlib

/-!
Verification development for the OnStar Gen11 GPS dump parser
(`onstar_gen11-cli.py`, the canonical copy of the pipeline).

The pipeline is embedded shallowly:

* bytes are `Fin 256`; the latin-1 projected text is a `List Nat` of
  Unicode code points (one per byte);
* regular-expression searches are modelled as leftmost-position matchers
  over the code-point list, faithful to the concrete patterns used by the
  source (`gps_tow=(\d+)`, `lat=([0-9A-Fa-f]{16})`,
  `lat=([0-9A-Fa-f\s]{16,})`, ...);
* IEEE-754 doubles are decoded exactly: a finite 64-bit pattern denotes a
  rational number, and Inf/NaN bit patterns denote a decode failure (in
  Python any comparison against NaN/Inf fails the range gate, so the
  coordinate keeps its failure marker either way);
* the derived GPS timestamp is represented as the exact number of
  milliseconds after the GPS epoch 1980-01-06T00:00:00Z; the source's
  `strftime`/`strptime` round trip through the calendar string is
  abstracted to this count, and the calendar year used by the pre-2010
  presentation check is recovered with a standard civil-calendar
  conversion (`civilYearOfDays`);
* the dictionary cells of a parsed entry, which in Python hold either a
  decoded value, the empty string, or a literal sentinel string, become
  small inductive types (`CoordCell`, `UtcCell`, `TsCell`).
-/

/-- ASCII decimal digit (Python `\d` restricted to code points 0-255:
only U+0030..U+0039 are in Unicode category Nd there). -/
def isDigit (c : Nat) : Bool := decide (48 ≤ c) && decide (c ≤ 57)

/-- Hex digit as used by the source's `[0-9A-Fa-f]` character classes. -/
def isHexDigit (c : Nat) : Bool :=
  (decide (48 ≤ c) && decide (c ≤ 57)) ||
  (decide (65 ≤ c) && decide (c ≤ 70)) ||
  (decide (97 ≤ c) && decide (c ≤ 102))

/-- Python `\s` (Unicode whitespace) restricted to code points 0-255:
TAB LF VT FF CR, FS GS RS US, SPACE, NEL, NBSP. -/
def isSpaceChar (c : Nat) : Bool :=
  ([9, 10, 11, 12, 13, 28, 29, 30, 31, 32, 133, 160] : List Nat).contains c

/-- Value of a hex digit (`int(c, 16)` semantics; junk value 0 elsewhere,
only ever applied to characters that passed `isHexDigit`). -/
def hexDigitVal (c : Nat) : Nat :=
  if 48 ≤ c ∧ c ≤ 57 then c - 48
  else if 65 ≤ c ∧ c ≤ 70 then c - 55
  else if 97 ≤ c ∧ c ≤ 102 then c - 87
  else 0

/-- `bytes.fromhex`: consecutive pairs of hex digits, first digit is the
high nibble. -/
def hexBytes : List Nat → List Nat
  | c1 :: c2 :: rest => (hexDigitVal c1 * 16 + hexDigitVal c2) :: hexBytes rest
  | _ => []

/-- Little-endian unsigned 64-bit read of a byte list, as performed by
`struct.unpack` with format `<d` on the byte level: byte 0 is least
significant. -/
def leU64 : List Nat → Nat
  | [] => 0
  | b :: rest => b + 256 * leU64 rest

/-- Exact value of the IEEE-754 binary64 number with the given 64-bit
pattern: `some` rational for finite values (normal and subnormal),
`none` for the Inf/NaN exponent 0x7FF.  Matches `struct.unpack('<d', _)`
composed with the subsequent range gate, under which NaN and infinities
always fail. -/
def doubleValue (bits : Nat) : Option ℚ :=
  let s : Nat := bits / 2 ^ 63
  let e : Nat := bits / 2 ^ 52 % 2 ^ 11
  let f : Nat := bits % 2 ^ 52
  if e = 2047 then none
  else
    let mag : ℚ :=
      if e = 0 then (f : ℚ) / 2 ^ 1074
      else ((2 ^ 52 + f : Nat) : ℚ) * 2 ^ e / 2 ^ 1075
    some (if s = 1 then -mag else mag)

/-- The cell holding a coordinate in a parsed entry: either the decoded
decimal value or the literal failure sentinel the entry is initialised
with. -/
inductive CoordCell where
  | errorText
  | val (q : ℚ)
deriving DecidableEq

/-- The cell holding one UTC component: empty string, extracted integer,
or the sentinel text substituted at presentation time. -/
inductive UtcCell where
  | blank
  | num (n : Nat)
  | errorText
deriving DecidableEq

/-- The cell holding the derived GPS timestamp: failure sentinel, an
exact number of milliseconds after the GPS epoch, or the pre-2010
implausibility annotation substituted at presentation time. -/
inductive TsCell where
  | errorText
  | time (ms : Nat)
  | pre2010Invalid
deriving DecidableEq

/-- Range-gate-and-scale step of the coordinate decode, source lines
154-161 / 171-178: unpack as little-endian double, divide by 1e7,
accept only inside `[-bound, bound]`. -/
def coordOfRaw (bound : ℚ) (raw : Option ℚ) : CoordCell :=
  match raw with
  | some r =>
      let dec := r / 10000000
      if -bound ≤ dec ∧ dec ≤ bound then CoordCell.val dec else CoordCell.errorText
  | none => CoordCell.errorText

/-- Coordinate decode of one extracted hex payload, source lines 149-164
(lat, `bound = 90`) and 166-181 (lon, `bound = 180`): strip non-hex
characters, require exactly 16 remaining, convert to 8 bytes, unpack as
little-endian double, scale and range-gate. -/
def decodeCoord (bound : ℚ) (hx : List Nat) : CoordCell :=
  let clean := hx.filter isHexDigit
  if clean.length = 16 then coordOfRaw bound (doubleValue (leU64 (hexBytes clean)))
  else CoordCell.errorText

/-- GPS time conversion, source lines 135-144: requires both inputs,
gates `0 ≤ tow ≤ 604800000` and `0 ≤ week ≤ 4000` (the lower bounds are
automatic here since the values come from `(\d+)` matches), and yields
the exact number of milliseconds after the GPS epoch,
`week * 604800 s + tow ms`. -/
def timestampOf : Option Nat → Option Nat → Option Nat
  | some tow, some week =>
      if tow ≤ 604800000 ∧ week ≤ 4000 then some (week * 604800000 + tow) else none
  | _, _ => none

/-- One fully-extracted record, the dictionary built by
`parse_gps_block` (source lines 94-105 keys). -/
structure Entry where
  lat : CoordCell
  long : CoordCell
  utc_year : UtcCell
  utc_month : UtcCell
  utc_day : UtcCell
  utc_hour : UtcCell
  utc_min : UtcCell
  timestamp_time : TsCell
  lat_hex : List Nat
  lon_hex : List Nat
deriving DecidableEq

/-- `entry['lat'] == 'ERROR'` test of the validator. -/
def coordFailed : CoordCell → Bool
  | CoordCell.errorText => true
  | _ => false

/-- `entry.get(k) not in ('', None)` test of the validator: an extracted
integer (including 0) counts as present, the empty string does not. -/
def utcPresent : UtcCell → Bool
  | UtcCell.blank => false
  | _ => true

/-- `entry['timestamp_time'] == 'ERROR'` test of the validator. -/
def tsFailed : TsCell → Bool
  | TsCell.errorText => true
  | _ => false

/-- Record validator `is_valid_entry`, source lines 214-228: reject on a
failed coordinate; reject when the five UTC components are not all
present and the derived timestamp failed. -/
def is_valid_entry (e : Entry) : Bool :=
  if coordFailed e.lat || coordFailed e.long then false
  else if !(utcPresent e.utc_year && utcPresent e.utc_month && utcPresent e.utc_day &&
            utcPresent e.utc_hour && utcPresent e.utc_min) && tsFailed e.timestamp_time then false
  else true

/-- Proleptic-Gregorian year of a day count measured from 1970-01-01
(days-to-civil algorithm, valid for the non-negative day counts produced
here). -/
def civilYearOfDays (z : Nat) : Nat :=
  let days := z + 719468
  let era := days / 146097
  let doe := days % 146097
  let yoe := (doe - doe / 1460 + doe / 36524 - doe / 146096) / 365
  let y := yoe + era * 400
  let doy := doe - (365 * yoe + yoe / 4 - yoe / 100)
  let mp := (5 * doy + 2) / 153
  let m := if mp < 10 then mp + 3 else mp - 9
  if m ≤ 2 then y + 1 else y

/-- Calendar year of a timestamp given as milliseconds after the GPS
epoch 1980-01-06 (day 3657 after 1970-01-01; the source's
`gps_epoch.timestamp()` is 315964800 = 3657 * 86400 seconds). -/
def yearOfGpsMs (ms : Nat) : Nat := civilYearOfDays (3657 + ms / 86400000)

/-- Presentation rewrite of one UTC cell, source lines 246-248:
`if not entry.get(utc_field)` — Python truthiness, so both the empty
string and the integer 0 are replaced by the sentinel. -/
def presentUtc : UtcCell → UtcCell
  | UtcCell.blank => UtcCell.errorText
  | UtcCell.num 0 => UtcCell.errorText
  | c => c

/-- Presentation rewrite of the derived timestamp, source lines 249-257:
a successfully derived time whose calendar year precedes 2010 becomes
the implausibility annotation; the failure sentinel is left alone. -/
def presentTs : TsCell → TsCell
  | TsCell.time ms =>
      if yearOfGpsMs ms < 2010 then TsCell.pre2010Invalid else TsCell.time ms
  | t => t

/-- In-place transformation `write_csv` applies to each accepted entry
before writing its row, source lines 244-257 (the blank spacer keys it
also injects carry no data and are not modelled). -/
def presentEntry (e : Entry) : Entry :=
  { e with
    utc_year := presentUtc e.utc_year
    utc_month := presentUtc e.utc_month
    utc_day := presentUtc e.utc_day
    utc_hour := presentUtc e.utc_hour
    utc_min := presentUtc e.utc_min
    timestamp_time := presentTs e.timestamp_time }

/-- `write_csv` as a record transformer: the rows written are the
presentation rewrite of each accepted entry, and — because the rewrite
mutates the very dictionaries of the accepted list — also the state of
the accepted collection after serialization. -/
def write_csv (entries : List Entry) : List Entry := entries.map presentEntry

/-- Code points of a marker / pattern key string. -/
def strCodes (s : String) : List Nat := s.data.map Char.toNat

/-- Latin-1 projection of the raw bytes, source line 47
(`data.decode('latin-1', errors='ignore')`; latin-1 never errors, so the
`ignore` handler is vacuous): byte value b becomes code point b. -/
def latin1 (data : List (Fin 256)) : List Nat := data.map Fin.val

/-- `re.search` as leftmost match: try the position-matcher `f` on every
suffix of the text, left to right, and return its first success. -/
def searchFirst {α : Type} (f : List Nat → Option α) : List Nat → Option α
  | [] => f []
  | c :: t =>
    match f (c :: t) with
    | some a => some a
    | none => searchFirst f t

/-- Position matcher for `key(\d+)` (`exact = none`) and `key(\d{k})`
(`exact = some k`): the literal key followed by a greedy digit run /
exactly k digits. -/
def matchNumAt (key : List Nat) (exact : Option Nat) (t : List Nat) : Option Nat :=
  if key.isPrefixOf t then
    let rest := t.drop key.length
    match exact with
    | none =>
        let ds := rest.takeWhile isDigit
        if 1 ≤ ds.length then some (ds.foldl (fun a c => a * 10 + (c - 48)) 0) else none
    | some k =>
        let ds := rest.take k
        if ds.length = k ∧ ds.all isDigit then
          some (ds.foldl (fun a c => a * 10 + (c - 48)) 0)
        else none
  else none

/-- `extract_number_flexible`, source lines 190-200: try the patterns in
order, return the integer captured by the first one that matches
anywhere in the text (`int` never fails on a `\d+`/`\d{4}` capture). -/
def extract_number_flexible (pats : List (List Nat × Option Nat)) (text : List Nat) :
    Option Nat :=
  match pats with
  | [] => none
  | (key, ex) :: rest =>
    match searchFirst (matchNumAt key ex) text with
    | some n => some n
    | none => extract_number_flexible rest text

/-- Position matcher for `key([0-9A-Fa-f]{16})`: the key followed by
exactly 16 hex digits (anything may follow them). -/
def matchP1At (key : List Nat) (t : List Nat) : Option (List Nat) :=
  if key.isPrefixOf t then
    let cap := (t.drop key.length).take 16
    if cap.length = 16 ∧ cap.all isHexDigit then some cap else none
  else none

/-- Position matcher for the fallback `key([0-9A-Fa-f\s]{16,})`: the key
followed by at least 16 characters drawn from hex digits and whitespace;
the greedy capture is the maximal such run. -/
def matchP2At (key : List Nat) (t : List Nat) : Option (List Nat) :=
  if key.isPrefixOf t then
    let cap := (t.drop key.length).takeWhile (fun c => isHexDigit c || isSpaceChar c)
    if 16 ≤ cap.length then some cap else none
  else none

/-- Body of the per-pattern step of `extract_hex_flexible`, source lines
207-211: clean the capture down to hex characters and return the first
16 of them when at least 16 remain; otherwise fall through to the next
pattern. -/
def tryCapture : Option (List Nat) → Option (List Nat)
  | some cap =>
      let clean := cap.filter isHexDigit
      if 16 ≤ clean.length then some (clean.take 16) else none
  | none => none

/-- `extract_hex_flexible`, source lines 202-212, instantiated with the
two patterns used at lines 127-128: exact-16 pattern first, whitespace
fallback second. -/
def extract_hex_flexible (key text : List Nat) : Option (List Nat) :=
  match tryCapture (searchFirst (matchP1At key) text) with
  | some r => some r
  | none => tryCapture (searchFirst (matchP2At key) text)

/-- Index of the leftmost occurrence of `pat` in `t` (as a prefix of one
of its suffixes). -/
def firstMatchIdx (pat : List Nat) : List Nat → Option Nat
  | [] => if pat.isEmpty then some 0 else none
  | c :: t =>
    if pat.isPrefixOf (c :: t) then some 0
    else (firstMatchIdx pat t).map (· + 1)

/-- `re.finditer` over the escaped literal pattern, source line 62:
non-overlapping occurrences found left to right.  The fuel argument
bounds the recursion; `finditer` supplies enough for any input. -/
def finditerGo (pat : List Nat) : Nat → List Nat → Nat → List Nat
  | 0, _, _ => []
  | fuel + 1, t, base =>
    match firstMatchIdx pat t with
    | none => []
    | some j =>
        (base + j) :: finditerGo pat fuel (t.drop (j + pat.length)) (base + j + pat.length)

/-- Start offsets of the non-overlapping occurrences of `pat` in `text`. -/
def finditer (pat text : List Nat) : List Nat := finditerGo pat (text.length + 1) text 0

/-- The five marker tokens, source lines 50-56. -/
def gps_patterns : List (List Nat) :=
  [strCodes "gps_tow=", strCodes "gps_week=", strCodes "utc_year=",
   strCodes "lat=", strCodes "lon="]

/-- Insert into a sorted list (ascending). -/
def insertNat (x : Nat) : List Nat → List Nat
  | [] => [x]
  | y :: ys => if x ≤ y then x :: y :: ys else y :: insertNat x ys

/-- `list.sort()` (ascending). -/
def sortNat : List Nat → List Nat
  | [] => []
  | x :: xs => insertNat x (sortNat xs)

/-- Keyword locator, source lines 58-68: all marker occurrence offsets,
collected per marker and then sorted. -/
def keyword_positions (text : List Nat) : List Nat :=
  sortNat (List.flatten (gps_patterns.map (fun p => finditer p text)))

/-- Inner grouping loop of the block segmenter, source lines 71-81, on
the nominal (start, end) of the open block: absorb every next position
less than 1000 past the block start, extending the nominal end to
`max end (pos + 200)`; otherwise close the block and open a new one. -/
def groupGo (bs be : Nat) : List Nat → List (Nat × Nat)
  | [] => [(bs, be)]
  | p :: rest =>
    if p < bs + 1000 then groupGo bs (max be (p + 200)) rest
    else (bs, be) :: groupGo p (p + 200) rest

/-- Block segmenter on the sorted position list, source lines 70-88: the
emitted span of each closed block is `[start - 50, end + 50]` clamped to
the text bounds (`max(0, _)` is Nat truncated subtraction here). -/
def blockSpans (positions : List Nat) (len : Nat) : List (Nat × Nat) :=
  match positions with
  | [] => []
  | p :: rest =>
      (groupGo p (p + 200) rest).map (fun se => (se.1 - 50, min len (se.2 + 50)))

/-- `find_gps_blocks_binary`, source lines 41-90, from the projected
text to the list of block texts. -/
def find_gps_blocks_binary (text : List Nat) : List (List Nat) :=
  (blockSpans (keyword_positions text) text.length).map
    (fun se => (text.drop se.1).take (se.2 - se.1))

/-- `''` / extracted-integer cell of one UTC component. -/
def toUtcCell : Option Nat → UtcCell
  | some n => UtcCell.num n
  | none => UtcCell.blank

/-- `parse_gps_block`, source lines 92-188: extract the seven integer
fields and the two hex payloads with their fallback-pattern lists,
convert the GPS time pair, decode both coordinates.  (The Python
`try`/`except` wrappers are unreachable on this code path — see the C10
theorem — so the function is total here.) -/
def parse_gps_block (block_text : List Nat) : Entry :=
  let gps_tow := extract_number_flexible
    [(strCodes "gps_tow=", none), (strCodes "tow=", none)] block_text
  let gps_week := extract_number_flexible
    [(strCodes "gps_week=", none), (strCodes "week=", none)] block_text
  let utc_year := extract_number_flexible
    [(strCodes "utc_year=", none), (strCodes "year=", some 4)] block_text
  let utc_month := extract_number_flexible
    [(strCodes "utc_month=", none), (strCodes "month=", none)] block_text
  let utc_day := extract_number_flexible
    [(strCodes "utc_day=", none), (strCodes "day=", none)] block_text
  let utc_hour := extract_number_flexible
    [(strCodes "utc_hour=", none), (strCodes "hour=", none)] block_text
  let utc_min := extract_number_flexible
    [(strCodes "utc_min=", none), (strCodes "min=", none)] block_text
  let lat_hex := extract_hex_flexible (strCodes "lat=") block_text
  let lon_hex := extract_hex_flexible (strCodes "lon=") block_text
  { lat := match lat_hex with
           | some h => decodeCoord 90 h
           | none => CoordCell.errorText
    long := match lon_hex with
            | some h => decodeCoord 180 h
            | none => CoordCell.errorText
    utc_year := toUtcCell utc_year
    utc_month := toUtcCell utc_month
    utc_day := toUtcCell utc_day
    utc_hour := toUtcCell utc_hour
    utc_min := toUtcCell utc_min
    timestamp_time := match timestampOf gps_tow gps_week with
                      | some ms => TsCell.time ms
                      | none => TsCell.errorText
    lat_hex := lat_hex.getD []
    lon_hex := lon_hex.getD [] }

/-- The whole core pipeline of `extract_gps_data`, source lines 20-28:
project, find blocks, parse each, keep the valid entries. -/
def pipeline (data : List (Fin 256)) : List Entry :=
  ((find_gps_blocks_binary (latin1 data)).map parse_gps_block).filter is_valid_entry

lemma coordFailed_false_iff (c : CoordCell) : coordFailed c = false ↔ c ≠ CoordCell.errorText := by
  cases c <;> simp [coordFailed]

lemma utcPresent_true_iff (c : UtcCell) : utcPresent c = true ↔ c ≠ UtcCell.blank := by
  cases c <;> simp [utcPresent]

lemma tsFailed_false_iff (t : TsCell) : tsFailed t = false ↔ t ≠ TsCell.errorText := by
  cases t <;> simp [tsFailed]

lemma is_valid_entry_eq (e : Entry) :
    is_valid_entry e =
      (!(coordFailed e.lat || coordFailed e.long) &&
       (utcPresent e.utc_year && utcPresent e.utc_month && utcPresent e.utc_day &&
        utcPresent e.utc_hour && utcPresent e.utc_min || !tsFailed e.timestamp_time)) := by
  unfold is_valid_entry
  cases coordFailed e.lat <;> cases coordFailed e.long <;>
    cases utcPresent e.utc_year <;> cases utcPresent e.utc_month <;>
    cases utcPresent e.utc_day <;> cases utcPresent e.utc_hour <;>
    cases utcPresent e.utc_min <;> cases tsFailed e.timestamp_time <;> rfl

/-- C1: the validator accepts a fully-extracted record iff both
coordinates decoded successfully and either all five UTC components are
present or the derived GPS timestamp decoded successfully; in
particular, valid coordinates with an incomplete UTC set (here a missing
month) and no convertible GPS time pair are rejected. -/
theorem c1_record_validator (e : Entry) :
    (is_valid_entry e = true ↔
      e.lat ≠ CoordCell.errorText ∧ e.long ≠ CoordCell.errorText ∧
      ((e.utc_year ≠ UtcCell.blank ∧ e.utc_month ≠ UtcCell.blank ∧
        e.utc_day ≠ UtcCell.blank ∧ e.utc_hour ≠ UtcCell.blank ∧
        e.utc_min ≠ UtcCell.blank) ∨
       e.timestamp_time ≠ TsCell.errorText)) ∧
    (e.timestamp_time = TsCell.errorText → e.utc_month = UtcCell.blank →
      is_valid_entry e = false) := by
  constructor
  · rw [is_valid_entry_eq]
    simp only [Bool.and_eq_true, Bool.or_eq_true, Bool.not_eq_true',
      Bool.or_eq_false_iff, coordFailed_false_iff, utcPresent_true_iff,
      tsFailed_false_iff]
    tauto
  · intro hts hmo
    rw [is_valid_entry_eq, hmo, hts]
    simp [utcPresent, tsFailed]

/-- Witness for C1 at a concrete record: valid coordinates, derived
timestamp unparseable, month missing — rejected. -/
theorem c1_record_validator_witness :
    is_valid_entry
      { lat := CoordCell.val 10, long := CoordCell.val 20, utc_year := UtcCell.num 2021,
        utc_month := UtcCell.blank, utc_day := UtcCell.num 15, utc_hour := UtcCell.num 10,
        utc_min := UtcCell.num 30, timestamp_time := TsCell.errorText,
        lat_hex := [], lon_hex := [] } = false :=
  (c1_record_validator _).2 rfl rfl

/-- C4: the GPS time converter yields a derived timestamp exactly when
both inputs were extracted and pass the inclusive gates
`tow ≤ 604,800,000` and `week ≤ 4000` (the lower gates are automatic for
`(\d+)` captures), in which case the timestamp is exactly
`week * 604800 s + tow ms` after the GPS epoch 1980-01-06T00:00:00Z;
`week = 2000, tow = 0` gives exactly 2000 × 604800 seconds after the
epoch, and an out-of-gate or missing input yields the unparseable
marker. -/
theorem c4_gps_time_converter :
    (∀ tow week ms, timestampOf tow week = some ms ↔
      ∃ t w, tow = some t ∧ week = some w ∧ t ≤ 604800000 ∧ w ≤ 4000 ∧
        ms = w * 604800000 + t) ∧
    timestampOf (some 0) (some 2000) = some (2000 * 604800 * 1000) ∧
    (∀ week, timestampOf (some 604800001) week = none) ∧
    (∀ tow, timestampOf tow none = none) ∧
    (∀ week, timestampOf none week = none) := by
  refine ⟨?_, by decide, ?_, ?_, ?_⟩
  · intro tow week ms
    cases tow with
    | none => simp [timestampOf]
    | some t =>
      cases week with
      | none => simp [timestampOf]
      | some w =>
        simp only [timestampOf]
        split_ifs with hg
        · simp only [Option.some.injEq]
          constructor
          · intro h
            exact ⟨t, w, rfl, rfl, hg.1, hg.2, h.symm⟩
          · rintro ⟨t', w', ht, hw, h1, h2, h3⟩
            cases ht; cases hw
            exact h3.symm
        · constructor
          · intro h
            exact absurd h (by simp)
          · rintro ⟨t', w', ht, hw, h1, h2, h3⟩
            cases ht; cases hw
            exact absurd ⟨h1, h2⟩ hg
  · intro week
    cases week with
    | none => rfl
    | some w =>
      simp only [timestampOf]
      rw [if_neg (by omega)]
  · intro tow
    cases tow <;> rfl
  · intro week
    rfl

/-- Witness for C4: the converter at `week = 2000, tow = 0` produces the
instant 1,209,600,000,000 ms after the GPS epoch. -/
theorem c4_gps_time_converter_witness :
    timestampOf (some 0) (some 2000) = some 1209600000000 := by
  have h := c4_gps_time_converter.2.1
  simpa using h

/-- C6: the byte-to-text projector is total (a function on all byte
sequences, the empty one included), length-preserving, and maps the
byte at each index to the Unicode code point of equal value. -/
theorem c6_byte_to_text_projector (data : List (Fin 256)) :
    (latin1 data).length = data.length ∧
    (∀ i, i < data.length → (latin1 data).getD i 0 = (data.getD i 0).val) := by
  refine ⟨List.length_map _ _, ?_⟩
  induction data with
  | nil => intro i h; simp at h
  | cons b rest ih =>
    intro i h
    cases i with
    | zero => rfl
    | succ j =>
      have hj : j < rest.length := by simpa using h
      simpa [latin1, List.getD] using ih j hj

/-- Witness for C6 at a concrete byte sequence and index. -/
theorem c6_byte_to_text_projector_witness :
    (1 < ([0, 255, 65] : List (Fin 256)).length) ∧
    (latin1 ([0, 255, 65] : List (Fin 256))).getD 1 0 =
      (([0, 255, 65] : List (Fin 256)).getD 1 0).val :=
  ⟨by decide, (c6_byte_to_text_projector ([0, 255, 65] : List (Fin 256))).2 1 (by decide)⟩

lemma presentUtc_eq_self (c : UtcCell) :
    presentUtc c = c ↔ c ≠ UtcCell.blank ∧ c ≠ UtcCell.num 0 := by
  cases c with
  | blank => simp [presentUtc]
  | errorText => simp [presentUtc]
  | num n =>
    cases n with
    | zero => simp [presentUtc]
    | succ m => simp [presentUtc]

lemma presentTs_eq_self (t : TsCell) :
    presentTs t = t ↔ ∀ ms, t = TsCell.time ms → ¬ yearOfGpsMs ms < 2010 := by
  cases t with
  | errorText => simp [presentTs]
  | pre2010Invalid => simp [presentTs]
  | time ms =>
    simp only [presentTs, TsCell.time.injEq]
    by_cases hy : yearOfGpsMs ms < 2010
    · rw [if_pos hy]
      constructor
      · intro h
        exact absurd h (by simp)
      · intro h
        exact absurd hy (h ms rfl)
    · rw [if_neg hy]
      constructor
      · intro _ ms' hms
        cases hms
        exact hy
      · intro _
        rfl

/-- C5: the presentation rule at a concrete accepted record whose
`utc_min` component is present as the integer 0: the code substitutes
the literal sentinel for it (Python `not entry.get(utc_field)` is true
for the integer 0, not only for the blank cell), while components
present as nonzero integers and the pre-2010 rewrite behave as claimed;
the claim's "a component present as an integer, including 0, is rendered
as that integer" therefore fails on the code. -/
theorem c5_presentation_zero_component :
    is_valid_entry
      { lat := CoordCell.val 10, long := CoordCell.val 20, utc_year := UtcCell.num 2021,
        utc_month := UtcCell.num 6, utc_day := UtcCell.num 15, utc_hour := UtcCell.num 10,
        utc_min := UtcCell.num 0, timestamp_time := TsCell.errorText,
        lat_hex := [], lon_hex := [] } = true ∧
    (presentEntry
      { lat := CoordCell.val 10, long := CoordCell.val 20, utc_year := UtcCell.num 2021,
        utc_month := UtcCell.num 6, utc_day := UtcCell.num 15, utc_hour := UtcCell.num 10,
        utc_min := UtcCell.num 0, timestamp_time := TsCell.errorText,
        lat_hex := [], lon_hex := [] }).utc_min = UtcCell.errorText := by
  constructor
  · decide
  · decide

/-- C9 counterexample: a concrete record accepted by the validator (its
month component is missing but its derived timestamp is valid, year
2018) that the serialization stage does NOT hand on unchanged — the
sentinel substitution rewrites its month cell in place, so the
accepted-record collection after `write_csv` is not field-for-field
identical to the validator's output. -/
theorem c9_immutability_counterexample :
    is_valid_entry
      { lat := CoordCell.val 10, long := CoordCell.val 20, utc_year := UtcCell.num 2021,
        utc_month := UtcCell.blank, utc_day := UtcCell.num 15, utc_hour := UtcCell.num 10,
        utc_min := UtcCell.num 30, timestamp_time := TsCell.time 1209600000000,
        lat_hex := [], lon_hex := [] } = true ∧
    write_csv
      [{ lat := CoordCell.val 10, long := CoordCell.val 20, utc_year := UtcCell.num 2021,
         utc_month := UtcCell.blank, utc_day := UtcCell.num 15, utc_hour := UtcCell.num 10,
         utc_min := UtcCell.num 30, timestamp_time := TsCell.time 1209600000000,
         lat_hex := [], lon_hex := [] }] ≠
      [{ lat := CoordCell.val 10, long := CoordCell.val 20, utc_year := UtcCell.num 2021,
         utc_month := UtcCell.blank, utc_day := UtcCell.num 15, utc_hour := UtcCell.num 10,
         utc_min := UtcCell.num 30, timestamp_time := TsCell.time 1209600000000,
         lat_hex := [], lon_hex := [] }] := by
  constructor
  · decide
  · decide

/-- C9 (amended): the serialization stage does rewrite accepted records
in place, but only in a limited way: coordinates and the raw hex fields
are never touched, and a record is handed on unchanged precisely when
every UTC component is present as a nonzero integer (or already holds
the sentinel) and the derived timestamp is not a successfully-decoded
pre-2010 time; otherwise the missing-or-zero UTC cells become the
sentinel and a pre-2010 time becomes the implausibility annotation. -/
theorem c9_presentation_rewrite (e : Entry) :
    (presentEntry e).lat = e.lat ∧ (presentEntry e).long = e.long ∧
    (presentEntry e).lat_hex = e.lat_hex ∧ (presentEntry e).lon_hex = e.lon_hex ∧
    (presentEntry e = e ↔
      ((e.utc_year ≠ UtcCell.blank ∧ e.utc_year ≠ UtcCell.num 0) ∧
       (e.utc_month ≠ UtcCell.blank ∧ e.utc_month ≠ UtcCell.num 0) ∧
       (e.utc_day ≠ UtcCell.blank ∧ e.utc_day ≠ UtcCell.num 0) ∧
       (e.utc_hour ≠ UtcCell.blank ∧ e.utc_hour ≠ UtcCell.num 0) ∧
       (e.utc_min ≠ UtcCell.blank ∧ e.utc_min ≠ UtcCell.num 0) ∧
       (∀ ms, e.timestamp_time = TsCell.time ms → ¬ yearOfGpsMs ms < 2010))) := by
  obtain ⟨lat, long, y, mo, d, hr, mi, ts, lh, ln⟩ := e
  refine ⟨rfl, rfl, rfl, rfl, ?_⟩
  simp only [presentEntry, Entry.mk.injEq, true_and, and_true,
    presentUtc_eq_self, presentTs_eq_self]

/-- Witness for C9 (amended) at a concrete record that the presentation
rule keeps unchanged: all components nonzero, timestamp unparseable. -/
theorem c9_presentation_rewrite_witness :
    presentEntry
      { lat := CoordCell.val 10, long := CoordCell.val 20, utc_year := UtcCell.num 2021,
        utc_month := UtcCell.num 6, utc_day := UtcCell.num 15, utc_hour := UtcCell.num 10,
        utc_min := UtcCell.num 30, timestamp_time := TsCell.errorText,
        lat_hex := [], lon_hex := [] } =
      { lat := CoordCell.val 10, long := CoordCell.val 20, utc_year := UtcCell.num 2021,
        utc_month := UtcCell.num 6, utc_day := UtcCell.num 15, utc_hour := UtcCell.num 10,
        utc_min := UtcCell.num 30, timestamp_time := TsCell.errorText,
        lat_hex := [], lon_hex := [] } :=
  (c9_presentation_rewrite _).2.2.2.2.mpr
    ⟨⟨by decide, by decide⟩, ⟨by decide, by decide⟩, ⟨by decide, by decide⟩,
     ⟨by decide, by decide⟩, ⟨by decide, by decide⟩, by intro ms h; cases h⟩

/-- C2: the greedy single-pass behaviour of the block segmenter.  The
last two conjuncts are the two cases of the grouping loop (absorb a
position strictly less than 1000 past the block start, extending the
nominal end to `max end (pos + 200)`; otherwise close the block); the
first four instantiate the emitted spans: a single isolated marker away
from the text bounds yields a 300-character block
`[p - 50, p + 200 + 50]`, two markers 999 apart merge into one block,
and two markers 1000 apart split into two blocks. -/
theorem c2_block_segmenter (p L : Nat) (h50 : 50 ≤ p) (hL : p + 1300 ≤ L) :
    blockSpans [p] L = [(p - 50, p + 250)] ∧
    (p + 250) - (p - 50) = 300 ∧
    blockSpans [p, p + 999] L = [(p - 50, p + 999 + 250)] ∧
    blockSpans [p, p + 1000] L = [(p - 50, p + 250), (p + 1000 - 50, p + 1000 + 250)] ∧
    (∀ bs be q rest, q < bs + 1000 →
      groupGo bs be (q :: rest) = groupGo bs (max be (q + 200)) rest) ∧
    (∀ bs be q rest, bs + 1000 ≤ q →
      groupGo bs be (q :: rest) = (bs, be) :: groupGo q (q + 200) rest) := by
  have e1 : min L (p + 200 + 50) = p + 250 := by omega
  have c1 : p + 999 < p + 1000 := by omega
  have m1 : max (p + 200) (p + 999 + 200) = p + 999 + 200 := by omega
  have e2 : min L (p + 999 + 200 + 50) = p + 999 + 250 := by omega
  have c2 : ¬ p + 1000 < p + 1000 := by omega
  have e3 : min L (p + 1000 + 200 + 50) = p + 1000 + 250 := by omega
  refine ⟨?_, by omega, ?_, ?_, ?_, ?_⟩
  · simp [blockSpans, groupGo, e1]
  · simp [blockSpans, groupGo, c1, m1, e2]
  · simp [blockSpans, groupGo, c2, e1, e3]
  · intro bs be q rest hq
    simp [groupGo, hq]
  · intro bs be q rest hq
    simp [groupGo, Nat.not_lt.mpr hq]

/-- Witness for C2 at `p = 50`, `L = 1350`. -/
theorem c2_block_segmenter_witness :
    (50 ≤ 50 ∧ 50 + 1300 ≤ 1350) ∧
    (blockSpans [50] 1350 = [(50 - 50, 50 + 250)] ∧
     (50 + 250) - (50 - 50) = 300 ∧
     blockSpans [50, 50 + 999] 1350 = [(50 - 50, 50 + 999 + 250)] ∧
     blockSpans [50, 50 + 1000] 1350 =
       [(50 - 50, 50 + 250), (50 + 1000 - 50, 50 + 1000 + 250)] ∧
     (∀ bs be q rest, q < bs + 1000 →
       groupGo bs be (q :: rest) = groupGo bs (max be (q + 200)) rest) ∧
     (∀ bs be q rest, bs + 1000 ≤ q →
       groupGo bs be (q :: rest) = (bs, be) :: groupGo q (q + 200) rest)) :=
  ⟨by decide, c2_block_segmenter 50 1350 (by decide) (by decide)⟩

lemma searchFirst_prop {α : Type} {P : α → Prop} (f : List Nat → Option α)
    (hf : ∀ t a, f t = some a → P a) :
    ∀ t a, searchFirst f t = some a → P a := by
  intro t
  induction t with
  | nil => exact fun a h => hf [] a h
  | cons c t ih =>
    intro a h
    simp only [searchFirst] at h
    cases hfc : f (c :: t) with
    | some b =>
      rw [hfc] at h
      cases h
      exact hf _ _ hfc
    | none =>
      rw [hfc] at h
      exact ih a h

lemma matchP1At_some (key : List Nat) :
    ∀ t cap, matchP1At key t = some cap →
      cap.length = 16 ∧ cap.all isHexDigit = true := by
  intro t cap h
  simp only [matchP1At] at h
  split at h
  · split at h
    · cases h
      assumption
    · cases h
  · cases h

lemma all_filter_eq_self {l : List Nat} {p : Nat → Bool} (h : l.all p = true) :
    l.filter p = l :=
  List.filter_eq_self.mpr (by simpa [List.all_eq_true] using h)

lemma tryCapture_some (o : Option (List Nat)) (s : List Nat)
    (h : tryCapture o = some s) :
    s.length = 16 ∧ s.all isHexDigit = true := by
  cases o with
  | none => cases h
  | some cap =>
    simp only [tryCapture] at h
    split at h
    · cases h
      constructor
      · rw [List.length_take]
        omega
      · rw [List.all_eq_true]
        intro a ha
        exact List.of_mem_filter (List.mem_of_mem_take ha)
    · cases h

lemma hexBytes_length : ∀ l : List Nat, (hexBytes l).length = l.length / 2
  | [] => by simp [hexBytes]
  | [_] => by simp [hexBytes]
  | c1 :: c2 :: rest => by
    simp only [hexBytes, List.length_cons, hexBytes_length rest]
    omega

/-- C7: the hex-payload extractor first tries the marker followed by
exactly 16 hex digits and returns that capture untouched; only when that
pattern matches nowhere does it try the fallback (marker followed by 16
or more characters drawn from hex digits and whitespace), in which case
it strips the capture down to its hex characters and returns the first
16 of them if at least 16 remain, and reports no match (not an error)
otherwise. -/
theorem c7_hex_payload_extractor (key text : List Nat) :
    extract_hex_flexible key text =
      match searchFirst (matchP1At key) text with
      | some cap => some cap
      | none =>
        match searchFirst (matchP2At key) text with
        | some cap =>
          if 16 ≤ (cap.filter isHexDigit).length then some ((cap.filter isHexDigit).take 16)
          else none
        | none => none := by
  unfold extract_hex_flexible
  cases h1 : searchFirst (matchP1At key) text with
  | some cap =>
    obtain ⟨hl, hall⟩ := searchFirst_prop (matchP1At key) (matchP1At_some key) text cap h1
    have hf : cap.filter isHexDigit = cap := all_filter_eq_self hall
    have ht : cap.take 16 = cap := by
      rw [← hl]
      exact List.take_length cap
    simp [tryCapture, hf, hl, ht]
  | none =>
    cases h2 : searchFirst (matchP2At key) text with
    | some cap => simp [tryCapture]
    | none => simp [tryCapture]

/-- Witness for C7: a block where the exact 16-hex-digit pattern
matches, evaluated through the characterization. -/
theorem c7_hex_payload_extractor_witness :
    extract_hex_flexible (strCodes "lat=") (strCodes "xlat=00112233445566Ffy") =
      some (strCodes "00112233445566Ff") := by
  rw [c7_hex_payload_extractor]
  decide

/-- C10: whenever the hex-payload extractor returns a value, that value
is exactly 16 hex-digit characters; consequently the block parser's
clean-up step leaves it unchanged at length 16 (the wrong-length branch
is not taken), the byte conversion yields exactly 8 bytes for the
little-endian double unpack, and the coordinate decode reaches the
range-gate stage rather than any failure of the conversion itself. -/
theorem c10_payload_always_16_hex (key text s : List Nat)
    (h : extract_hex_flexible key text = some s) :
    s.length = 16 ∧ s.all isHexDigit = true ∧ s.filter isHexDigit = s ∧
    (hexBytes s).length = 8 ∧
    (∀ bound : ℚ, decodeCoord bound s =
      coordOfRaw bound (doubleValue (leU64 (hexBytes s)))) := by
  have hs : s.length = 16 ∧ s.all isHexDigit = true := by
    unfold extract_hex_flexible at h
    cases h1 : tryCapture (searchFirst (matchP1At key) text) with
    | some r =>
      rw [h1] at h
      cases h
      exact tryCapture_some _ _ h1
    | none =>
      rw [h1] at h
      exact tryCapture_some _ _ h
  obtain ⟨hl, ha⟩ := hs
  have hfil : s.filter isHexDigit = s := all_filter_eq_self ha
  refine ⟨hl, ha, hfil, by rw [hexBytes_length, hl], ?_⟩
  intro bound
  simp only [decodeCoord, hfil, hl]
  simp

/-- Witness for C10: the extractor succeeds on a concrete block and its
payload satisfies the soundness properties. -/
theorem c10_payload_always_16_hex_witness :
    extract_hex_flexible (strCodes "lon=") (strCodes "lon=0000000000000000") =
      some (strCodes "0000000000000000") ∧
    ((strCodes "0000000000000000").length = 16 ∧
     (strCodes "0000000000000000").all isHexDigit = true ∧
     (strCodes "0000000000000000").filter isHexDigit = strCodes "0000000000000000" ∧
     (hexBytes (strCodes "0000000000000000")).length = 8 ∧
     (∀ bound : ℚ, decodeCoord bound (strCodes "0000000000000000") =
       coordOfRaw bound (doubleValue (leU64 (hexBytes (strCodes "0000000000000000")))))) :=
  ⟨by decide,
   c10_payload_always_16_hex (strCodes "lon=") (strCodes "lon=0000000000000000")
     (strCodes "0000000000000000") (by decide)⟩

lemma coordOfRaw_val_iff (bound d : ℚ) (raw : Option ℚ) :
    coordOfRaw bound raw = CoordCell.val d ↔
      raw = some (d * 10000000) ∧ -bound ≤ d ∧ d ≤ bound := by
  have h7 : (10000000 : ℚ) ≠ 0 := by norm_num
  cases raw with
  | none => simp [coordOfRaw]
  | some r =>
    simp only [coordOfRaw, Option.some.injEq]
    by_cases hc : -bound ≤ r / 10000000 ∧ r / 10000000 ≤ bound
    · rw [if_pos hc]
      simp only [CoordCell.val.injEq]
      constructor
      · intro h
        refine ⟨?_, h ▸ hc.1, h ▸ hc.2⟩
        rw [← h, div_mul_cancel₀ r h7]
      · rintro ⟨h1, _, _⟩
        rw [h1, mul_div_cancel_right₀ d h7]
    · rw [if_neg hc]
      constructor
      · intro h
        exact absurd h (by simp)
      · rintro ⟨h1, hb1, hb2⟩
        exfalso
        apply hc
        rw [h1, mul_div_cancel_right₀ d h7]
        exact ⟨hb1, hb2⟩

/-- C3: for a 16-hex-digit payload, the decoder records the coordinate
`d` exactly when the 8 payload bytes, read as a little-endian IEEE-754
double, denote the finite value `d * 10,000,000` and `d` lies in
`[-90, 90]` for latitude (`[-180, 180]` for longitude); otherwise —
non-finite bit pattern or out-of-range value — the coordinate stays in
the decode-failure state. -/
theorem c3_coordinate_decoder (h : List Nat) (hlen : h.length = 16)
    (hhex : h.all isHexDigit = true) :
    (∀ d : ℚ, decodeCoord 90 h = CoordCell.val d ↔
      (doubleValue (leU64 (hexBytes h)) = some (d * 10000000) ∧ -90 ≤ d ∧ d ≤ 90)) ∧
    (∀ d : ℚ, decodeCoord 180 h = CoordCell.val d ↔
      (doubleValue (leU64 (hexBytes h)) = some (d * 10000000) ∧ -180 ≤ d ∧ d ≤ 180)) := by
  have hfil : h.filter isHexDigit = h := all_filter_eq_self hhex
  constructor <;> intro d <;>
    · simp only [decodeCoord, hfil, hlen, if_pos]
      exact coordOfRaw_val_iff _ d _

/-- Witness for C3 at the all-zero payload (16 characters `0`). -/
theorem c3_coordinate_decoder_witness :
    (List.replicate 16 48).length = 16 ∧
    (List.replicate 16 48).all isHexDigit = true ∧
    ((∀ d : ℚ, decodeCoord 90 (List.replicate 16 48) = CoordCell.val d ↔
       (doubleValue (leU64 (hexBytes (List.replicate 16 48))) = some (d * 10000000) ∧
        -90 ≤ d ∧ d ≤ 90)) ∧
     (∀ d : ℚ, decodeCoord 180 (List.replicate 16 48) = CoordCell.val d ↔
       (doubleValue (leU64 (hexBytes (List.replicate 16 48))) = some (d * 10000000) ∧
        -180 ≤ d ∧ d ≤ 180))) :=
  ⟨by decide, by decide, c3_coordinate_decoder (List.replicate 16 48) (by decide) (by decide)⟩

lemma firstMatchIdx_some (pat : List Nat) :
    ∀ t j, firstMatchIdx pat t = some j → pat.isPrefixOf (t.drop j) = true := by
  intro t
  induction t with
  | nil =>
    intro j h
    simp only [firstMatchIdx] at h
    split at h
    case isTrue hemp =>
      cases h
      rw [List.isEmpty_iff] at hemp
      subst hemp
      rfl
    case isFalse => cases h
  | cons c t ih =>
    intro j h
    simp only [firstMatchIdx] at h
    split at h
    case isTrue hp =>
      cases h
      simpa using hp
    case isFalse hp =>
      cases hfi : firstMatchIdx pat t with
      | none =>
        rw [hfi] at h
        cases h
      | some j' =>
        rw [hfi] at h
        simp at h
        subst h
        simpa using ih j' hfi

lemma firstMatchIdx_none (pat text : List Nat) (hne : pat ≠ [])
    (h : ∀ i, i < text.length → pat.isPrefixOf (text.drop i) = false) :
    firstMatchIdx pat text = none := by
  cases hfi : firstMatchIdx pat text with
  | none => rfl
  | some j =>
    exfalso
    have hpre := firstMatchIdx_some pat text j hfi
    by_cases hj : j < text.length
    · rw [h j hj] at hpre
      cases hpre
    · have hd : text.drop j = [] := List.drop_eq_nil_of_le (by omega)
      rw [hd] at hpre
      obtain ⟨a, pat', rfl⟩ := List.exists_cons_of_ne_nil hne
      cases hpre

lemma finditer_eq_nil (pat text : List Nat) (hne : pat ≠ [])
    (h : ∀ i, i < text.length → pat.isPrefixOf (text.drop i) = false) :
    finditer pat text = [] := by
  unfold finditer finditerGo
  rw [firstMatchIdx_none pat text hne h]

/-- C8: on an input in which none of the five marker tokens occurs, the
keyword locator returns the empty position sequence, the block segmenter
yields zero candidate blocks, and the pipeline's accepted-record list is
empty. -/
theorem c8_no_markers (data : List (Fin 256))
    (h : ∀ p ∈ gps_patterns, ∀ i, i < (latin1 data).length →
      p.isPrefixOf ((latin1 data).drop i) = false) :
    keyword_positions (latin1 data) = [] ∧
    find_gps_blocks_binary (latin1 data) = [] ∧
    pipeline data = [] := by
  have hall : ∀ p ∈ gps_patterns, finditer p (latin1 data) = [] := by
    intro p hp
    refine finditer_eq_nil p (latin1 data) ?_ (h p hp)
    fin_cases hp <;> decide
  have h1 : finditer (strCodes "gps_tow=") (latin1 data) = [] :=
    hall _ (by simp [gps_patterns])
  have h2 : finditer (strCodes "gps_week=") (latin1 data) = [] :=
    hall _ (by simp [gps_patterns])
  have h3 : finditer (strCodes "utc_year=") (latin1 data) = [] :=
    hall _ (by simp [gps_patterns])
  have h4 : finditer (strCodes "lat=") (latin1 data) = [] :=
    hall _ (by simp [gps_patterns])
  have h5 : finditer (strCodes "lon=") (latin1 data) = [] :=
    hall _ (by simp [gps_patterns])
  have hkp : keyword_positions (latin1 data) = [] := by
    unfold keyword_positions
    simp [gps_patterns, h1, h2, h3, h4, h5, sortNat]
  refine ⟨hkp, ?_, ?_⟩
  · unfold find_gps_blocks_binary
    rw [hkp]
    rfl
  · unfold pipeline find_gps_blocks_binary
    rw [hkp]
    rfl

/-- Witness for C8 on a concrete marker-free byte sequence. -/
theorem c8_no_markers_witness :
    (∀ p ∈ gps_patterns, ∀ i, i < (latin1 ([72, 105, 33] : List (Fin 256))).length →
      p.isPrefixOf ((latin1 ([72, 105, 33] : List (Fin 256))).drop i) = false) ∧
    (keyword_positions (latin1 ([72, 105, 33] : List (Fin 256))) = [] ∧
     find_gps_blocks_binary (latin1 ([72, 105, 33] : List (Fin 256))) = [] ∧
     pipeline ([72, 105, 33] : List (Fin 256)) = []) :=
  ⟨by decide, c8_no_markers ([72, 105, 33] : List (Fin 256)) (by decide)⟩
